import Mathlib

/-!
Verification of the VirtualBox-Microservices repository.

The repository contains three Express services:
* `src/users-service/index.js` — the users service;
* `src/gateway/index.js` (first part) — the API gateway;
* `src/gateway/index.js` (second concatenated part) — the products service.

We embed the request handlers as pure Lean functions.  Request bodies are
JSON objects; we model each body field at the JSON type the service's data
model gives it (strings for `name`/`email`/`role`/`description`/`category`,
numbers for `price`/`stock`/`quantity`), with `Option` marking absence.
Query parameters and `:id` path parameters arrive as strings and are modelled
as strings.  JavaScript numbers are modelled as exact rationals (ℚ); this is
faithful for the values appearing in bodies and in the seed data (JSON cannot
encode NaN/Infinity, and all values used stay far below 2^53).
Timestamps (`new Date().toISOString()`) are modelled by an explicit `now`
parameter of type `String`.
-/

namespace VBoxMS

/-! ## JavaScript primitive semantics -/

/-- The whitespace characters `parseInt` skips (the common subset actually
relevant here: space, tab, newline, carriage return). -/
def jsWhitespace (c : Char) : Bool :=
  c == ' ' || c == '\t' || c == '\n' || c == '\r'

def isHexDigitChar (c : Char) : Bool :=
  c.isDigit || ('a' ≤ c && c ≤ 'f') || ('A' ≤ c && c ≤ 'F')

def decDigitsVal (ds : List Char) : ℕ :=
  ds.foldl (fun a c => a * 10 + (c.toNat - 48)) 0

def hexDigitVal (c : Char) : ℕ :=
  if c.isDigit then c.toNat - 48
  else if 'a' ≤ c && c ≤ 'f' then c.toNat - 87
  else c.toNat - 55

def hexDigitsVal (ds : List Char) : ℕ :=
  ds.foldl (fun a c => a * 16 + hexDigitVal c) 0

/-- Decimal digit run after the optional sign: `parseInt` consumes the
longest prefix of decimal digits; an empty run means NaN (`none`). -/
def jsParseIntDec (sgn : ℤ) (cs : List Char) : Option ℤ :=
  let ds := cs.takeWhile Char.isDigit
  if ds.isEmpty then none else some (sgn * (decDigitsVal ds : ℤ))

/-- After whitespace and sign: ECMAScript `parseInt` with no radix argument
switches to base 16 when the remaining input starts with `0x`/`0X`,
otherwise parses a decimal digit run. -/
def jsParseIntBody (sgn : ℤ) (cs : List Char) : Option ℤ :=
  match cs with
  | '0' :: c :: rest =>
    if c == 'x' || c == 'X' then
      let hs := rest.takeWhile isHexDigitChar
      if hs.isEmpty then none else some (sgn * (hexDigitsVal hs : ℤ))
    else jsParseIntDec sgn cs
  | _ => jsParseIntDec sgn cs

/-- JavaScript `parseInt(s)` (no radix argument): skip leading whitespace,
read an optional sign, then a hex (`0x` prefixed) or decimal digit run.
`none` models NaN. -/
def jsParseInt (s : String) : Option ℤ :=
  let cs := s.toList.dropWhile jsWhitespace
  match cs with
  | '-' :: rest => jsParseIntBody (-1) rest
  | '+' :: rest => jsParseIntBody 1 rest
  | _ => jsParseIntBody 1 cs

/-- JavaScript `parseInt` applied to a number (as in `parseInt(stock)`)
truncates toward zero (the number is rendered in decimal and its integer
prefix parsed; faithful for numbers rendered in plain decimal notation,
which covers every value these services handle). -/
def jsTruncNum (q : ℚ) : ℤ :=
  if 0 ≤ q then ⌊q⌋ else ⌈q⌉

/-- JavaScript `arr.slice(0, e)` where `e` is the (integer or NaN) result of
`parseInt`: NaN is converted to 0, a negative end counts from the end of the
array. -/
def jsSliceTo {α : Type} (xs : List α) (e : Option ℤ) : List α :=
  match e with
  | none => []
  | some n => if 0 ≤ n then xs.take n.toNat else xs.take (xs.length - n.natAbs)

/-- JavaScript truthiness of an optional string field: `undefined` and the
empty string are falsy; `otruthy o` is the value of `o` when truthy. -/
def otruthy (o : Option String) : Option String :=
  match o with
  | some s => if s = "" then none else some s
  | none => none

/-- JavaScript truthiness of an optional number field: `undefined` and `0`
are falsy. -/
def ntruthy (o : Option ℚ) : Option ℚ :=
  match o with
  | some q => if q = 0 then none else some q
  | none => none

/-- Splits a list at the first element satisfying `p`, returning the prefix
before it, the element, and the suffix after it.  This models the
`findIndex` / `find` + in-place mutation / `splice` pattern used by every
`:id` handler. -/
def splitFirst {α : Type} (p : α → Bool) : List α → Option (List α × α × List α)
  | [] => none
  | x :: xs =>
    if p x then some ([], x, xs)
    else match splitFirst p xs with
      | none => none
      | some (pre, y, post) => some (x :: pre, y, post)

/-! ## Users service (`src/users-service/index.js`) -/

structure User where
  id : ℤ
  name : String
  email : String
  role : String
  createdAt : String
  updatedAt : Option String := none
deriving Repr, DecidableEq

structure UsersState where
  users : List User
  nextUserId : ℤ
deriving Repr, DecidableEq

/-- The seed dataset of the users service (`users` and `nextUserId = 4`). -/
def usersSeedState : UsersState :=
  { users :=
      [ { id := 1, name := "John Doe", email := "john.doe@example.com",
          role := "admin", createdAt := "2024-01-01T00:00:00.000Z" }
      , { id := 2, name := "Jane Smith", email := "jane.smith@example.com",
          role := "user", createdAt := "2024-01-15T00:00:00.000Z" }
      , { id := 3, name := "Bob Johnson", email := "bob.johnson@example.com",
          role := "user", createdAt := "2024-02-01T00:00:00.000Z" } ]
  , nextUserId := 4 }

/-- A `POST /users` or `PUT /users/:id` request body (`name`, `email`,
`role` fields, each possibly absent). -/
structure UserBody where
  name : Option String := none
  email : Option String := none
  role : Option String := none
deriving Repr, DecidableEq

/-- The JSON response bodies the users service produces. -/
inductive UsersBody where
  | userList (count : ℕ) (users : List User)
  | userObj (u : User)
  | createdMsg (message : String) (user : User)
  | updatedMsg (message : String) (user : User)
  | deletedMsg (message : String) (user : User)
  | errBody (error : String) (userId : Option (Option ℤ))
deriving Repr, DecidableEq

/-- Result of a users-service handler: HTTP status, response body, and the
store state after the request. -/
structure UsersResult where
  status : ℕ
  body : UsersBody
  state : UsersState
deriving Repr, DecidableEq

/-- `GET /users` — optional exact `role` filter (if truthy), then
`slice(0, parseInt(limit))` (if `limit` truthy). -/
def usersGetAll (st : UsersState) (role limit : Option String) : UsersResult :=
  let l1 := match otruthy role with
    | some r => st.users.filter (fun u => u.role = r)
    | none => st.users
  let l2 := match otruthy limit with
    | some lim => jsSliceTo l1 (jsParseInt lim)
    | none => l1
  ⟨200, .userList l2.length l2, st⟩

/-- `GET /users/:id` after `parseInt` of the path parameter:
`users.find(u => u.id === userId)` (a NaN id never matches). -/
def usersGetByIdCore (st : UsersState) (uid : Option ℤ) : UsersResult :=
  match splitFirst (fun u => uid == some u.id) st.users with
  | some (_, u, _) => ⟨200, .userObj u, st⟩
  | none => ⟨404, .errBody "User not found" (some uid), st⟩

/-- `GET /users/:id`. -/
def usersGetById (st : UsersState) (idStr : String) : UsersResult :=
  usersGetByIdCore st (jsParseInt idStr)

/-- `POST /users`: 400 when `name` or `email` is falsy, 409 when a user with
the same email exists, otherwise push a new record with id `nextUserId` and
increment the counter. -/
def usersCreate (st : UsersState) (b : UserBody) (now : String) : UsersResult :=
  match otruthy b.name, otruthy b.email with
  | some nm, some em =>
    if st.users.any (fun u => u.email = em) then
      ⟨409, .errBody "User with this email already exists" none, st⟩
    else
      let newUser : User :=
        { id := st.nextUserId, name := nm, email := em,
          role := (otruthy b.role).getD "user", createdAt := now }
      ⟨201, .createdMsg "User created successfully" newUser,
        { users := st.users ++ [newUser], nextUserId := st.nextUserId + 1 }⟩
  | _, _ => ⟨400, .errBody "Name and email are required" none, st⟩

/-- `PUT /users/:id` after `parseInt`: 404 when no record matches; 409 when a
truthy body email differs from the record's email and any user already has
it; otherwise overwrite exactly the truthy fields and set `updatedAt`. -/
def usersUpdateCore (st : UsersState) (uid : Option ℤ) (b : UserBody)
    (now : String) : UsersResult :=
  match splitFirst (fun u => uid == some u.id) st.users with
  | none => ⟨404, .errBody "User not found" (some uid), st⟩
  | some (pre, u, post) =>
    let conflict : Bool := match otruthy b.email with
      | some em => em ≠ u.email && st.users.any (fun v => v.email = em)
      | none => false
    if conflict then
      ⟨409, .errBody "User with this email already exists" none, st⟩
    else
      let u' : User :=
        { u with
          name := (otruthy b.name).getD u.name
          email := (otruthy b.email).getD u.email
          role := (otruthy b.role).getD u.role
          updatedAt := some now }
      ⟨200, .updatedMsg "User updated successfully" u',
        { st with users := pre ++ u' :: post }⟩

/-- `PUT /users/:id`. -/
def usersUpdate (st : UsersState) (idStr : String) (b : UserBody)
    (now : String) : UsersResult :=
  usersUpdateCore st (jsParseInt idStr) b now

/-- `DELETE /users/:id` after `parseInt`: 404 when absent, else
`splice(index, 1)` and return the removed record.  `nextUserId` is not
touched. -/
def usersDeleteCore (st : UsersState) (uid : Option ℤ) : UsersResult :=
  match splitFirst (fun u => uid == some u.id) st.users with
  | none => ⟨404, .errBody "User not found" (some uid), st⟩
  | some (pre, u, post) =>
    ⟨200, .deletedMsg "User deleted successfully" u,
      { st with users := pre ++ post }⟩

/-- `DELETE /users/:id`. -/
def usersDelete (st : UsersState) (idStr : String) : UsersResult :=
  usersDeleteCore st (jsParseInt idStr)

/-- A mutating request against the users service. -/
inductive UserOp where
  | create (b : UserBody) (now : String)
  | update (idStr : String) (b : UserBody) (now : String)
  | delete (idStr : String)
deriving Repr

def usersApply (st : UsersState) : UserOp → UsersResult
  | .create b now => usersCreate st b now
  | .update idStr b now => usersUpdate st idStr b now
  | .delete idStr => usersDelete st idStr

/-- Extends the log of assigned IDs: a successful create assigns
`st.nextUserId`; every other request assigns nothing. -/
def usersLogStep (st : UsersState) (log : List ℤ) (op : UserOp) : List ℤ :=
  match op with
  | .create _ _ =>
    if (usersApply st op).status = 201 then log ++ [st.nextUserId] else log
  | _ => log

/-- Runs a request sequence, tracking alongside the state the log of every
ID the store has ever assigned (`log` starts at the seed IDs). -/
def usersTrace (st : UsersState) (log : List ℤ) :
    List UserOp → UsersState × List ℤ
  | [] => (st, log)
  | op :: ops => usersTrace (usersApply st op).state (usersLogStep st log op) ops

/-- IDs of the users seed records. -/
def usersSeedIds : List ℤ := [1, 2, 3]

/-! ## Products service (the second part of `src/gateway/index.js`) -/

structure Product where
  id : ℤ
  name : String
  description : String
  price : ℚ
  category : String
  stock : ℚ
  createdAt : String
  updatedAt : Option String := none
deriving Repr, DecidableEq

structure ProductsState where
  products : List Product
  nextProductId : ℤ
deriving Repr, DecidableEq

/-- The seed dataset of the products service (`products` and
`nextProductId = 6`). -/
def productsSeedState : ProductsState :=
  { products :=
      [ { id := 1, name := "Laptop Pro X1",
          description := "High-performance laptop for professionals",
          price := 1299.99, category := "Electronics", stock := 45,
          createdAt := "2024-01-10T00:00:00.000Z" }
      , { id := 2, name := "Wireless Mouse",
          description := "Ergonomic wireless mouse with precision tracking",
          price := 29.99, category := "Accessories", stock := 150,
          createdAt := "2024-01-15T00:00:00.000Z" }
      , { id := 3, name := "USB-C Hub",
          description := "7-in-1 USB-C hub with HDMI, USB 3.0, and card reader",
          price := 49.99, category := "Accessories", stock := 80,
          createdAt := "2024-02-01T00:00:00.000Z" }
      , { id := 4, name := "Mechanical Keyboard",
          description := "RGB mechanical gaming keyboard with Cherry MX switches",
          price := 159.99, category := "Accessories", stock := 60,
          createdAt := "2024-02-05T00:00:00.000Z" }
      , { id := 5, name := "4K Monitor",
          description := "27-inch 4K IPS monitor with HDR support",
          price := 399.99, category := "Electronics", stock := 25,
          createdAt := "2024-02-10T00:00:00.000Z" } ]
  , nextProductId := 6 }

/-- A `POST /products` or `PUT /products/:id` request body. -/
structure ProductBody where
  name : Option String := none
  description : Option String := none
  price : Option ℚ := none
  category : Option String := none
  stock : Option ℚ := none
deriving Repr, DecidableEq

/-- The JSON response bodies the products service produces. -/
inductive ProductsBody where
  | productList (count : ℕ) (products : List Product)
  | productObj (p : Product)
  | createdMsg (message : String) (product : Product)
  | updatedMsg (message : String) (product : Product)
  | deletedMsg (message : String) (product : Product)
  | stockMsg (message : String) (product : Product)
  | errBody (error : String) (productId : Option (Option ℤ))
deriving Repr, DecidableEq

structure ProductsResult where
  status : ℕ
  body : ProductsBody
  state : ProductsState
deriving Repr, DecidableEq

/-- JavaScript `parseFloat(s)` on the decimal notations these services
handle: skip leading whitespace, read an optional sign, then an integer
digit run with an optional fraction (`"12"`, `"12.5"`, `".5"`, `"12."`).
`none` models NaN.  (Exponent notation and the `Infinity` literal are
outside the model; no judged statement evaluates them.) -/
def jsParseFloat (s : String) : Option ℚ :=
  let cs := s.toList.dropWhile jsWhitespace
  let (sgn, cs1) : ℚ × List Char :=
    match cs with
    | '-' :: rest => (-1, rest)
    | '+' :: rest => (1, rest)
    | _ => (1, cs)
  let intPart := cs1.takeWhile Char.isDigit
  let rest := cs1.drop intPart.length
  let fracPart := match rest with
    | '.' :: rest2 => rest2.takeWhile Char.isDigit
    | _ => []
  if intPart.isEmpty && fracPart.isEmpty then none
  else some (sgn * ((decDigitsVal intPart : ℚ)
    + (decDigitsVal fracPart : ℚ) / (10 : ℚ) ^ fracPart.length))

/-- `GET /products` — optional case-insensitive exact `category` filter,
optional inclusive `minPrice`/`maxPrice` bounds (each compared through
`parseFloat`; a NaN bound satisfies no comparison, so the filter empties
the list), then `slice(0, parseInt(limit))`; each filter applies only when
its query parameter is truthy. -/
def productsGetAll (st : ProductsState)
    (category minPrice maxPrice limit : Option String) : ProductsResult :=
  let l1 := match otruthy category with
    | some c => st.products.filter (fun p => p.category.toLower = c.toLower)
    | none => st.products
  let l2 := match otruthy minPrice with
    | some m => l1.filter (fun p => match jsParseFloat m with
        | some v => v ≤ p.price
        | none => false)
    | none => l1
  let l3 := match otruthy maxPrice with
    | some m => l2.filter (fun p => match jsParseFloat m with
        | some v => p.price ≤ v
        | none => false)
    | none => l2
  let l4 := match otruthy limit with
    | some lim => jsSliceTo l3 (jsParseInt lim)
    | none => l3
  ⟨200, .productList l4.length l4, st⟩

/-- `GET /products/:id` after `parseInt`. -/
def productsGetByIdCore (st : ProductsState) (pid : Option ℤ) : ProductsResult :=
  match splitFirst (fun p => pid == some p.id) st.products with
  | some (_, p, _) => ⟨200, .productObj p, st⟩
  | none => ⟨404, .errBody "Product not found" (some pid), st⟩

/-- `GET /products/:id`. -/
def productsGetById (st : ProductsState) (idStr : String) : ProductsResult :=
  productsGetByIdCore st (jsParseInt idStr)

/-- `POST /products`: 400 when `name`, `price` or `category` is falsy; 400
when `price <= 0`; otherwise push a new record with id `nextProductId`
(`description` defaults to `""` and `stock` to the supplied value or `0`,
with no validation of `stock`). -/
def productsCreate (st : ProductsState) (b : ProductBody)
    (now : String) : ProductsResult :=
  match otruthy b.name, ntruthy b.price, otruthy b.category with
  | some nm, some pr, some cat =>
    if pr ≤ 0 then
      ⟨400, .errBody "Price must be greater than 0" none, st⟩
    else
      let newProduct : Product :=
        { id := st.nextProductId, name := nm,
          description := (otruthy b.description).getD "",
          price := pr, category := cat,
          stock := (ntruthy b.stock).getD 0, createdAt := now }
      ⟨201, .createdMsg "Product created successfully" newProduct,
        { products := st.products ++ [newProduct],
          nextProductId := st.nextProductId + 1 }⟩
  | _, _, _ => ⟨400, .errBody "Name, price, and category are required" none, st⟩

/-- `PUT /products/:id` after `parseInt`: 404 when absent; 400 when the body
supplies a `price <= 0`; otherwise overwrite `name`/`price`/`category` when
truthy, `description`/`stock` when present (`stock` through `parseInt`), and
set `updatedAt`. -/
def productsUpdateCore (st : ProductsState) (pid : Option ℤ) (b : ProductBody)
    (now : String) : ProductsResult :=
  match splitFirst (fun p => pid == some p.id) st.products with
  | none => ⟨404, .errBody "Product not found" (some pid), st⟩
  | some (pre, p, post) =>
    let badPrice : Bool := match b.price with
      | some q => q ≤ 0
      | none => false
    if badPrice then
      ⟨400, .errBody "Price must be greater than 0" none, st⟩
    else
      let p' : Product :=
        { p with
          name := (otruthy b.name).getD p.name
          description := b.description.getD p.description
          price := (ntruthy b.price).getD p.price
          category := (otruthy b.category).getD p.category
          stock := match b.stock with
            | some q => (jsTruncNum q : ℚ)
            | none => p.stock
          updatedAt := some now }
      ⟨200, .updatedMsg "Product updated successfully" p',
        { st with products := pre ++ p' :: post }⟩

/-- `PUT /products/:id`. -/
def productsUpdate (st : ProductsState) (idStr : String) (b : ProductBody)
    (now : String) : ProductsResult :=
  productsUpdateCore st (jsParseInt idStr) b now

/-- `DELETE /products/:id` after `parseInt`. -/
def productsDeleteCore (st : ProductsState) (pid : Option ℤ) : ProductsResult :=
  match splitFirst (fun p => pid == some p.id) st.products with
  | none => ⟨404, .errBody "Product not found" (some pid), st⟩
  | some (pre, p, post) =>
    ⟨200, .deletedMsg "Product deleted successfully" p,
      { st with products := pre ++ post }⟩

/-- `DELETE /products/:id`. -/
def productsDelete (st : ProductsState) (idStr : String) : ProductsResult :=
  productsDeleteCore st (jsParseInt idStr)

/-- `PATCH /products/:id/stock` after `parseInt` of the path parameter: 404
when the product is absent (checked first), 400 when `quantity` is absent
from the body (`quantity === undefined`; the value `0` is present and
valid), otherwise set `stock` to `parseInt(quantity)` with no sign check. -/
def productsPatchStockCore (st : ProductsState) (pid : Option ℤ)
    (quantity : Option ℚ) (now : String) : ProductsResult :=
  match splitFirst (fun p => pid == some p.id) st.products with
  | none => ⟨404, .errBody "Product not found" (some pid), st⟩
  | some (pre, p, post) =>
    match quantity with
    | none => ⟨400, .errBody "Quantity is required" none, st⟩
    | some q =>
      let p' : Product :=
        { p with stock := (jsTruncNum q : ℚ), updatedAt := some now }
      ⟨200, .stockMsg "Stock updated successfully" p',
        { st with products := pre ++ p' :: post }⟩

/-- `PATCH /products/:id/stock`. -/
def productsPatchStock (st : ProductsState) (idStr : String)
    (quantity : Option ℚ) (now : String) : ProductsResult :=
  productsPatchStockCore st (jsParseInt idStr) quantity now

/-- A mutating request against the products service. -/
inductive ProductOp where
  | create (b : ProductBody) (now : String)
  | update (idStr : String) (b : ProductBody) (now : String)
  | delete (idStr : String)
  | patchStock (idStr : String) (quantity : Option ℚ) (now : String)
deriving Repr

def productsApply (st : ProductsState) : ProductOp → ProductsResult
  | .create b now => productsCreate st b now
  | .update idStr b now => productsUpdate st idStr b now
  | .delete idStr => productsDelete st idStr
  | .patchStock idStr q now => productsPatchStock st idStr q now

/-- Extends the log of IDs the products store has assigned. -/
def productsLogStep (st : ProductsState) (log : List ℤ) (op : ProductOp) :
    List ℤ :=
  match op with
  | .create _ _ =>
    if (productsApply st op).status = 201 then log ++ [st.nextProductId] else log
  | _ => log

/-- Runs a request sequence against the products service, tracking the log
of every ID the store has ever assigned. -/
def productsTrace (st : ProductsState) (log : List ℤ) :
    List ProductOp → ProductsState × List ℤ
  | [] => (st, log)
  | op :: ops =>
    productsTrace (productsApply st op).state (productsLogStep st log op) ops

/-- Runs a request sequence, returning only the final state. -/
def productsRun (st : ProductsState) (ops : List ProductOp) : ProductsState :=
  (productsTrace st [] ops).1

/-- IDs of the products seed records. -/
def productsSeedIds : List ℤ := [1, 2, 3, 4, 5]

/-! ## API Gateway (the first part of `src/gateway/index.js`)

Each gateway handler awaits one axios call and translates its outcome.
Axios resolves on a 2xx backend response and rejects otherwise: on a non-2xx
response the rejection carries `error.response` (with the backend status) and
`error.message = "Request failed with status code <s>"`; on a connection
failure or timeout there is no `error.response` and `error.message` describes
the failure.  `BackendResult` abstracts over the backend's response body
type. -/

inductive BackendResult (β : Type) where
  | ok (body : β)
  | httpError (status : ℕ) (body : β)
  | netError (msg : String)
deriving Repr, DecidableEq

/-- A gateway response body: either the backend body relayed through
`res.json(response.data)`, or an error object built by the gateway
(`{error}` or `{error, message}`). -/
inductive GwBody (β : Type) where
  | relay (b : β)
  | errMsg (error : String) (message : Option String)
deriving Repr, DecidableEq

structure GwResponse (β : Type) where
  status : ℕ
  body : GwBody β
deriving Repr, DecidableEq

/-- Axios's error message for a rejected response with status `s`. -/
def statusErrMsg (s : ℕ) : String :=
  "Request failed with status code " ++ toString s

/-- Generic gateway handler for a route without 404 translation (`GET`/`POST`
collection routes): relay on success with the route's success status, any
failure becomes a 500 with the route's error label. -/
def gwPlain {β : Type} (okStatus : ℕ) (label : String) :
    BackendResult β → GwResponse β
  | .ok b => ⟨okStatus, .relay b⟩
  | .httpError s _ => ⟨500, .errMsg label (some (statusErrMsg s))⟩
  | .netError m => ⟨500, .errMsg label (some m)⟩

/-- Generic gateway handler for a `:id` route: relay on success; a backend
404 becomes a 404 with the generic `{error: notFound}` body; any other
failure becomes a 500 with the route's error label and the axios message. -/
def gwWithNotFound {β : Type} (notFound label : String) :
    BackendResult β → GwResponse β
  | .ok b => ⟨200, .relay b⟩
  | .httpError s _ =>
    if s = 404 then ⟨404, .errMsg notFound none⟩
    else ⟨500, .errMsg label (some (statusErrMsg s))⟩
  | .netError m => ⟨500, .errMsg label (some m)⟩

def gwGetUsers {β : Type} : BackendResult β → GwResponse β :=
  gwPlain 200 "Failed to fetch users"

def gwCreateUser {β : Type} : BackendResult β → GwResponse β :=
  gwPlain 201 "Failed to create user"

def gwGetUserById {β : Type} : BackendResult β → GwResponse β :=
  gwWithNotFound "User not found" "Failed to fetch user"

def gwUpdateUser {β : Type} : BackendResult β → GwResponse β :=
  gwWithNotFound "User not found" "Failed to update user"

def gwDeleteUser {β : Type} : BackendResult β → GwResponse β :=
  gwWithNotFound "User not found" "Failed to delete user"

def gwGetProducts {β : Type} : BackendResult β → GwResponse β :=
  gwPlain 200 "Failed to fetch products"

def gwCreateProduct {β : Type} : BackendResult β → GwResponse β :=
  gwPlain 201 "Failed to create product"

def gwGetProductById {β : Type} : BackendResult β → GwResponse β :=
  gwWithNotFound "Product not found" "Failed to fetch product"

def gwUpdateProduct {β : Type} : BackendResult β → GwResponse β :=
  gwWithNotFound "Product not found" "Failed to update product"

def gwDeleteProduct {β : Type} : BackendResult β → GwResponse β :=
  gwWithNotFound "Product not found" "Failed to delete product"

/-- The six gateway routes that carry an `:id` parameter, each with its
generic not-found body and its 500 error label. -/
def gwIdRoutes (β : Type) :
    List ((BackendResult β → GwResponse β) × String × String) :=
  [ (gwGetUserById, "User not found", "Failed to fetch user")
  , (gwUpdateUser, "User not found", "Failed to update user")
  , (gwDeleteUser, "User not found", "Failed to delete user")
  , (gwGetProductById, "Product not found", "Failed to fetch product")
  , (gwUpdateProduct, "Product not found", "Failed to update product")
  , (gwDeleteProduct, "Product not found", "Failed to delete product") ]

/-- The outbound HTTP request a gateway handler issues. -/
structure OutboundReq where
  method : String
  path : String
  query : List (String × String)
deriving Repr, DecidableEq

/-- The outbound request built by `GET /api/users`: the code calls
`axios.get(USERS_SERVICE_URL + "/users")`, a fixed URL with no query
string, whatever query the incoming request carried. -/
def gwUsersListOutbound (_incomingQuery : List (String × String)) : OutboundReq :=
  ⟨"GET", "/users", []⟩

/-- Modelled from the spec: "For each defined route it issues an equivalent
outbound HTTP request to the configured backend base URL …, forwarding
method, path suffix, query string, and JSON body unchanged" — the outbound
request `GET /api/users` would have to issue, its query string forwarded
unchanged. -/
def specUsersListOutbound (incomingQuery : List (String × String)) : OutboundReq :=
  ⟨"GET", "/users", incomingQuery⟩

/-- End-to-end composition of `GET /api/users` with the users service: the
gateway requests `/users` with no query parameters (so the backend sees
`role` and `limit` as absent, whatever the client sent) and the backend
always answers 200, which axios surfaces as `.ok`. -/
def gwGetUsersComposed (st : UsersState)
    (_role _limit : Option String) : GwResponse UsersBody :=
  gwGetUsers (.ok (usersGetAll st none none).body)

/-- Modelled from the spec: the same composition if the gateway forwarded
the query string unchanged, as §4.4 of the spec asserts. -/
def specGetUsersComposed (st : UsersState)
    (role limit : Option String) : GwResponse UsersBody :=
  gwGetUsers (.ok (usersGetAll st role limit).body)

/-- A complete outbound HTTP request a gateway handler issues: method, path
on the backend, query string, and forwarded JSON body (of the route's body
type; `none` for the bodyless GET/DELETE requests axios sends). -/
structure OutboundRequest (γ : Type) where
  method : String
  path : String
  query : List (String × String)
  body : Option γ
deriving Repr, DecidableEq

/-- `GET /api/users`: `axios.get(USERS_SERVICE_URL + "/users")` — fixed
path, no query serialisation (the handler never reads `req.query`), no
body. -/
def gwUsersListReq (_q : List (String × String)) : OutboundRequest UserBody :=
  ⟨"GET", "/users", [], none⟩

/-- `GET /api/users/:id`: `axios.get(USERS_SERVICE_URL + "/users/" + id)`. -/
def gwUserByIdReq (id : String) (_q : List (String × String)) :
    OutboundRequest UserBody :=
  ⟨"GET", "/users/" ++ id, [], none⟩

/-- `POST /api/users`: `axios.post(USERS_SERVICE_URL + "/users", req.body)`. -/
def gwCreateUserReq (_q : List (String × String)) (b : UserBody) :
    OutboundRequest UserBody :=
  ⟨"POST", "/users", [], some b⟩

/-- `PUT /api/users/:id`:
`axios.put(USERS_SERVICE_URL + "/users/" + id, req.body)`. -/
def gwUpdateUserReq (id : String) (_q : List (String × String))
    (b : UserBody) : OutboundRequest UserBody :=
  ⟨"PUT", "/users/" ++ id, [], some b⟩

/-- `DELETE /api/users/:id`:
`axios.delete(USERS_SERVICE_URL + "/users/" + id)`. -/
def gwDeleteUserReq (id : String) (_q : List (String × String)) :
    OutboundRequest UserBody :=
  ⟨"DELETE", "/users/" ++ id, [], none⟩

/-- `GET /api/products`: `axios.get(PRODUCTS_SERVICE_URL + "/products")`. -/
def gwProductsListReq (_q : List (String × String)) :
    OutboundRequest ProductBody :=
  ⟨"GET", "/products", [], none⟩

/-- `GET /api/products/:id`:
`axios.get(PRODUCTS_SERVICE_URL + "/products/" + id)`. -/
def gwProductByIdReq (id : String) (_q : List (String × String)) :
    OutboundRequest ProductBody :=
  ⟨"GET", "/products/" ++ id, [], none⟩

/-- `POST /api/products`:
`axios.post(PRODUCTS_SERVICE_URL + "/products", req.body)`. -/
def gwCreateProductReq (_q : List (String × String)) (b : ProductBody) :
    OutboundRequest ProductBody :=
  ⟨"POST", "/products", [], some b⟩

/-- `PUT /api/products/:id`:
`axios.put(PRODUCTS_SERVICE_URL + "/products/" + id, req.body)`. -/
def gwUpdateProductReq (id : String) (_q : List (String × String))
    (b : ProductBody) : OutboundRequest ProductBody :=
  ⟨"PUT", "/products/" ++ id, [], some b⟩

/-- `DELETE /api/products/:id`:
`axios.delete(PRODUCTS_SERVICE_URL + "/products/" + id)`. -/
def gwDeleteProductReq (id : String) (_q : List (String × String)) :
    OutboundRequest ProductBody :=
  ⟨"DELETE", "/products/" ++ id, [], none⟩

/-- Modelled from the spec: "For each defined route it issues an equivalent
outbound HTTP request … forwarding method, path suffix, query string, and
JSON body unchanged" — the request a route with the given method, backend
path and body would issue if it also forwarded the incoming query string
unchanged. -/
def specForwardReq {γ : Type} (method path : String)
    (q : List (String × String)) (b : Option γ) : OutboundRequest γ :=
  ⟨method, path, q, b⟩

/-- End-to-end composition of `GET /api/products` with the products
service: the gateway requests `/products` with no query parameters (so the
backend sees `category`, `minPrice`, `maxPrice` and `limit` as absent,
whatever the client sent) and the backend always answers 200, which axios
surfaces as `.ok`. -/
def gwGetProductsComposed (st : ProductsState)
    (_category _minPrice _maxPrice _limit : Option String) :
    GwResponse ProductsBody :=
  gwGetProducts (.ok (productsGetAll st none none none none).body)

/-- Modelled from the spec: "leading-integer parsing" of an id string — an
optional sign followed by the longest prefix of decimal digits (claim C10's
reading of the id parsing, to be compared with `jsParseInt`). -/
def leadingIntParse (s : String) : Option ℤ :=
  match s.toList with
  | '-' :: rest => jsParseIntDec (-1) rest
  | '+' :: rest => jsParseIntDec 1 rest
  | cs => jsParseIntDec 1 cs

/-- A store in which some user carries id 16, reachable after thirteen
successful creates. -/
def hexStore : UsersState :=
  { users := [{ id := 16, name := "Pat", email := "pat@example.com",
                role := "user", createdAt := "t0" }]
  , nextUserId := 17 }

/-- The rational 5/2, built from the reduced constructor so that kernel
evaluation never has to normalise. -/
def fiveHalves : ℚ := ⟨5, 2, by norm_num, by norm_num [Nat.Coprime]⟩

/-- A one-product store with integer price and stock, used as a concrete
input by several witnesses. -/
def wProducts : ProductsState :=
  { products := [{ id := 1, name := "A", description := "", price := 5,
                   category := "C", stock := 3, createdAt := "t0" }]
  , nextProductId := 2 }

/-! ## Helper lemmas -/

theorem splitFirst_eq {α : Type} {p : α → Bool} {l pre post : List α} {x : α}
    (h : splitFirst p l = some (pre, x, post)) :
    l = pre ++ x :: post ∧ p x = true ∧ ∀ y ∈ pre, p y = false := by
  induction l generalizing pre x post with
  | nil => simp [splitFirst] at h
  | cons a as ih =>
    rw [splitFirst] at h
    by_cases hpa : p a
    · rw [if_pos hpa] at h
      obtain ⟨rfl, rfl, rfl⟩ : pre = [] ∧ a = x ∧ as = post := by
        simpa using h
      simpa using hpa
    · rw [if_neg hpa] at h
      cases hsf : splitFirst p as with
      | none => rw [hsf] at h; simp at h
      | some t =>
        obtain ⟨pre', y, post'⟩ := t
        rw [hsf] at h
        obtain ⟨rfl, rfl, rfl⟩ : a :: pre' = pre ∧ y = x ∧ post' = post := by
          simpa using h
        obtain ⟨hl, hx, hpre⟩ := ih hsf
        refine ⟨by simp [hl], hx, ?_⟩
        intro y hy
        rcases List.mem_cons.mp hy with rfl | hy
        · exact Bool.eq_false_iff.mpr hpa
        · exact hpre y hy

theorem splitFirst_of_forall_false {α : Type} {p : α → Bool}
    (h : ∀ x, p x = false) (l : List α) : splitFirst p l = none := by
  induction l with
  | nil => rfl
  | cons a as ih => simp [splitFirst, h a, ih]

theorem splitFirst_append_cons {α : Type} {p : α → Bool} {pre : List α}
    (x : α) (post : List α)
    (hpre : ∀ y ∈ pre, p y = false) (hx : p x = true) :
    splitFirst p (pre ++ x :: post) = some (pre, x, post) := by
  induction pre with
  | nil => simp [splitFirst, hx]
  | cons a as ih =>
    have ha : p a = false := hpre a (List.mem_cons_self a as)
    have := ih (fun y hy => hpre y (List.mem_cons_of_mem a hy))
    simp [splitFirst, ha, this]

theorem jsTruncNum_intCast (n : ℤ) : jsTruncNum (n : ℚ) = n := by
  unfold jsTruncNum
  split <;> simp

/-! ## Store lemmas for the ID-assignment invariant (C1) -/

theorem usersUpdateCore_nextUserId (st : UsersState) (uid : Option ℤ)
    (b : UserBody) (now : String) :
    (usersUpdateCore st uid b now).state.nextUserId = st.nextUserId := by
  unfold usersUpdateCore
  cases h : splitFirst (fun u => uid == some u.id) st.users with
  | none => simp
  | some t =>
    obtain ⟨pre, u, post⟩ := t
    dsimp only
    split <;> rfl

theorem usersDeleteCore_nextUserId (st : UsersState) (uid : Option ℤ) :
    (usersDeleteCore st uid).state.nextUserId = st.nextUserId := by
  unfold usersDeleteCore
  cases h : splitFirst (fun u => uid == some u.id) st.users with
  | none => simp
  | some t => obtain ⟨pre, u, post⟩ := t; rfl

/-- `usersCreate` either fails (status ≠ 201) leaving the state unchanged,
or succeeds with the counter bumped by one. -/
theorem usersCreate_cases (st : UsersState) (b : UserBody) (now : String) :
    ((usersCreate st b now).status ≠ 201 ∧ (usersCreate st b now).state = st) ∨
    ((usersCreate st b now).status = 201 ∧
      (usersCreate st b now).state.nextUserId = st.nextUserId + 1) := by
  unfold usersCreate
  split
  · split
    · left; exact ⟨by simp, rfl⟩
    · right; exact ⟨rfl, rfl⟩
  · left; exact ⟨by simp, rfl⟩

/-- A successful `usersCreate` reports the created record, whose id is the
pre-request value of the counter. -/
theorem usersCreate_createdMsg (st : UsersState) (b : UserBody) (now m : String)
    (u : User) (h : (usersCreate st b now).body = .createdMsg m u) :
    u.id = st.nextUserId := by
  unfold usersCreate at h
  split at h
  · split at h
    · simp at h
    · dsimp only at h
      cases h
      rfl
  · simp at h

def UsersLogInv (st : UsersState) (log : List ℤ) : Prop :=
  ∀ a ∈ log, a < st.nextUserId

theorem usersApply_logInv (st : UsersState) (log : List ℤ) (op : UserOp)
    (h : UsersLogInv st log) :
    UsersLogInv (usersApply st op).state (usersLogStep st log op) := by
  cases op with
  | create b now =>
    dsimp only [usersApply, usersLogStep]
    rcases usersCreate_cases st b now with ⟨hne, hst⟩ | ⟨h201, hnext⟩
    · rw [if_neg hne, hst]; exact h
    · rw [if_pos h201]
      intro a ha
      rw [hnext]
      rcases List.mem_append.mp ha with ha | ha
      · exact lt_trans (h a ha) (by omega)
      · rw [List.mem_singleton.mp ha]; omega
  | update idStr b now =>
    intro a ha
    dsimp only [usersApply, usersLogStep]
    rw [usersUpdate, usersUpdateCore_nextUserId]
    exact h a ha
  | delete idStr =>
    intro a ha
    dsimp only [usersApply, usersLogStep]
    rw [usersDelete, usersDeleteCore_nextUserId]
    exact h a ha

theorem usersTrace_logInv (ops : List UserOp) (st : UsersState) (log : List ℤ)
    (h : UsersLogInv st log) :
    UsersLogInv (usersTrace st log ops).1 (usersTrace st log ops).2 := by
  induction ops generalizing st log with
  | nil => exact h
  | cons op ops ih =>
    rw [usersTrace]
    exact ih _ _ (usersApply_logInv st log op h)

theorem productsUpdateCore_nextProductId (st : ProductsState) (pid : Option ℤ)
    (b : ProductBody) (now : String) :
    (productsUpdateCore st pid b now).state.nextProductId = st.nextProductId := by
  unfold productsUpdateCore
  cases h : splitFirst (fun p => pid == some p.id) st.products with
  | none => simp
  | some t =>
    obtain ⟨pre, p, post⟩ := t
    dsimp only
    split <;> rfl

theorem productsDeleteCore_nextProductId (st : ProductsState) (pid : Option ℤ) :
    (productsDeleteCore st pid).state.nextProductId = st.nextProductId := by
  unfold productsDeleteCore
  cases h : splitFirst (fun p => pid == some p.id) st.products with
  | none => simp
  | some t => obtain ⟨pre, p, post⟩ := t; rfl

theorem productsPatchStockCore_nextProductId (st : ProductsState)
    (pid : Option ℤ) (q : Option ℚ) (now : String) :
    (productsPatchStockCore st pid q now).state.nextProductId
      = st.nextProductId := by
  unfold productsPatchStockCore
  cases h : splitFirst (fun p => pid == some p.id) st.products with
  | none => simp
  | some t =>
    obtain ⟨pre, p, post⟩ := t
    dsimp only
    cases q <;> rfl

/-- `productsCreate` either fails (status ≠ 201) leaving the state
unchanged, or succeeds with the counter bumped by one. -/
theorem productsCreate_cases (st : ProductsState) (b : ProductBody)
    (now : String) :
    ((productsCreate st b now).status ≠ 201 ∧
      (productsCreate st b now).state = st) ∨
    ((productsCreate st b now).status = 201 ∧
      (productsCreate st b now).state.nextProductId = st.nextProductId + 1) := by
  unfold productsCreate
  split
  · split
    · left; exact ⟨by simp, rfl⟩
    · right; exact ⟨rfl, rfl⟩
  · left; exact ⟨by simp, rfl⟩

/-- A successful `productsCreate` reports the created record, whose id is
the pre-request value of the counter. -/
theorem productsCreate_createdMsg (st : ProductsState) (b : ProductBody)
    (now m : String) (p : Product)
    (h : (productsCreate st b now).body = .createdMsg m p) :
    p.id = st.nextProductId := by
  unfold productsCreate at h
  split at h
  · split at h
    · simp at h
    · dsimp only at h
      cases h
      rfl
  · simp at h

def ProductsLogInv (st : ProductsState) (log : List ℤ) : Prop :=
  ∀ a ∈ log, a < st.nextProductId

theorem productsApply_logInv (st : ProductsState) (log : List ℤ)
    (op : ProductOp) (h : ProductsLogInv st log) :
    ProductsLogInv (productsApply st op).state (productsLogStep st log op) := by
  cases op with
  | create b now =>
    dsimp only [productsApply, productsLogStep]
    rcases productsCreate_cases st b now with ⟨hne, hst⟩ | ⟨h201, hnext⟩
    · rw [if_neg hne, hst]; exact h
    · rw [if_pos h201]
      intro a ha
      rw [hnext]
      rcases List.mem_append.mp ha with ha | ha
      · exact lt_trans (h a ha) (by omega)
      · rw [List.mem_singleton.mp ha]; omega
  | update idStr b now =>
    intro a ha
    dsimp only [productsApply, productsLogStep]
    rw [productsUpdate, productsUpdateCore_nextProductId]
    exact h a ha
  | delete idStr =>
    intro a ha
    dsimp only [productsApply, productsLogStep]
    rw [productsDelete, productsDeleteCore_nextProductId]
    exact h a ha
  | patchStock idStr q now =>
    intro a ha
    dsimp only [productsApply, productsLogStep]
    rw [productsPatchStock, productsPatchStockCore_nextProductId]
    exact h a ha

theorem productsTrace_logInv (ops : List ProductOp) (st : ProductsState)
    (log : List ℤ) (h : ProductsLogInv st log) :
    ProductsLogInv (productsTrace st log ops).1 (productsTrace st log ops).2 := by
  induction ops generalizing st log with
  | nil => exact h
  | cons op ops ih =>
    rw [productsTrace]
    exact ih _ _ (productsApply_logInv st log op h)

/-- C1: starting from the seed store, every successful create assigns an ID
strictly greater than every ID the store has previously assigned (the seed
IDs and all IDs handed out along any earlier sequence of create, update and
delete requests — deleted ones included), and no request ever decreases the
next-ID counter; this holds for the users store and the products store
alike, so an ID freed by delete is never assigned again. -/
theorem c1_create_assigns_fresh_ids
    (uops : List UserOp) (ub : UserBody) (pops : List ProductOp)
    (pb : ProductBody) (unow pnow um pm : String) (u : User) (p : Product)
    (st2 : UsersState) (op2 : UserOp) (pst2 : ProductsState) (pop2 : ProductOp)
    (hu : (usersCreate (usersTrace usersSeedState usersSeedIds uops).1 ub unow).body
        = .createdMsg um u)
    (hp : (productsCreate (productsTrace productsSeedState productsSeedIds pops).1 pb pnow).body
        = .createdMsg pm p) :
    (∀ a ∈ (usersTrace usersSeedState usersSeedIds uops).2, a < u.id) ∧
    (∀ a ∈ (productsTrace productsSeedState productsSeedIds pops).2, a < p.id) ∧
    st2.nextUserId ≤ (usersApply st2 op2).state.nextUserId ∧
    pst2.nextProductId ≤ (productsApply pst2 pop2).state.nextProductId := by
  refine ⟨?_, ?_, ?_, ?_⟩
  · rw [usersCreate_createdMsg _ _ _ _ _ hu]
    exact usersTrace_logInv uops usersSeedState usersSeedIds
      (by unfold UsersLogInv; decide)
  · rw [productsCreate_createdMsg _ _ _ _ _ hp]
    exact productsTrace_logInv pops productsSeedState productsSeedIds
      (by unfold ProductsLogInv; decide)
  · cases op2 with
    | create b now =>
      rcases usersCreate_cases st2 b now with ⟨-, hst⟩ | ⟨-, hnext⟩
      · exact le_of_eq (by rw [usersApply, hst])
      · rw [usersApply, hnext]; omega
    | update idStr b now =>
      exact le_of_eq (by rw [usersApply, usersUpdate, usersUpdateCore_nextUserId])
    | delete idStr =>
      exact le_of_eq (by rw [usersApply, usersDelete, usersDeleteCore_nextUserId])
  · cases pop2 with
    | create b now =>
      rcases productsCreate_cases pst2 b now with ⟨-, hst⟩ | ⟨-, hnext⟩
      · exact le_of_eq (by rw [productsApply, hst])
      · rw [productsApply, hnext]; omega
    | update idStr b now =>
      exact le_of_eq
        (by rw [productsApply, productsUpdate, productsUpdateCore_nextProductId])
    | delete idStr =>
      exact le_of_eq
        (by rw [productsApply, productsDelete, productsDeleteCore_nextProductId])
    | patchStock idStr q now =>
      exact le_of_eq
        (by rw [productsApply, productsPatchStock, productsPatchStockCore_nextProductId])

/-- C1 witness: a concrete create on each seed store (after the empty
request sequence, and with one concrete delete step for the monotonicity
parts). -/
theorem c1_witness :
    (∀ a ∈ (usersTrace usersSeedState usersSeedIds []).2,
        a < (4 : ℤ)) ∧
    (∀ a ∈ (productsTrace productsSeedState productsSeedIds []).2,
        a < (6 : ℤ)) ∧
    usersSeedState.nextUserId
      ≤ (usersApply usersSeedState (.delete "2")).state.nextUserId ∧
    productsSeedState.nextProductId
      ≤ (productsApply productsSeedState (.delete "2")).state.nextProductId :=
  c1_create_assigns_fresh_ids [] ⟨some "Zed", some "zed@example.com", none⟩
    [] ⟨some "W", none, some 5, some "C", none⟩ "t" "t"
    "User created successfully" "Product created successfully"
    ⟨4, "Zed", "zed@example.com", "user", "t", none⟩
    ⟨6, "W", "", 5, "C", 0, "t", none⟩
    usersSeedState (.delete "2") productsSeedState (.delete "2")
    (by decide) (by decide)

/-! ## Price positivity (C2) -/

/-- Every record in the products store has a strictly positive price. -/
def ProductsPricePos (st : ProductsState) : Prop :=
  ∀ x ∈ st.products, 0 < x.price

theorem productsCreate_pricePos (st : ProductsState) (b : ProductBody)
    (now : String) (h : ProductsPricePos st) :
    ProductsPricePos (productsCreate st b now).state := by
  unfold productsCreate
  split
  next nm pr cat heqn heqp heqc =>
    split
    · exact h
    next hpr =>
      intro x hx
      rcases List.mem_append.mp hx with hx | hx
      · exact h x hx
      · rw [List.mem_singleton.mp hx]
        dsimp only
        exact lt_of_not_le hpr
  next => exact h


theorem productsUpdateCore_pricePos (st : ProductsState) (pid : Option ℤ)
    (b : ProductBody) (now : String) (h : ProductsPricePos st) :
    ProductsPricePos (productsUpdateCore st pid b now).state := by
  unfold productsUpdateCore
  cases hsf : splitFirst (fun p => pid == some p.id) st.products with
  | none => exact h
  | some t =>
    obtain ⟨pre, p, post⟩ := t
    obtain ⟨hl, -, -⟩ := splitFirst_eq hsf
    dsimp only
    split
    · exact h
    next hbad =>
      intro x hx
      rcases List.mem_append.mp hx with hx | hx
      · exact h x (by rw [hl]; exact List.mem_append_left _ hx)
      · rcases List.mem_cons.mp hx with rfl | hx
        · dsimp only
          cases hbp : b.price with
          | none => simp only [hbp, ntruthy, Option.getD]
                    exact h p (by rw [hl]; exact List.mem_append_right _ (List.mem_cons_self _ _))
          | some q =>
            have hq : ¬ (q ≤ 0) := by
              intro hq0
              exact hbad (by simp [hbp, hq0])
            have hqne : q ≠ 0 := fun h0 => hq (le_of_eq h0)
            simp only [hbp, ntruthy, if_neg hqne, Option.getD]
            exact lt_of_not_le hq
        · exact h x (by rw [hl]; exact List.mem_append_right _ (List.mem_cons_of_mem _ hx))

theorem productsPatchStockCore_pricePos (st : ProductsState) (pid : Option ℤ)
    (q : Option ℚ) (now : String) (h : ProductsPricePos st) :
    ProductsPricePos (productsPatchStockCore st pid q now).state := by
  unfold productsPatchStockCore
  cases hsf : splitFirst (fun p => pid == some p.id) st.products with
  | none => exact h
  | some t =>
    obtain ⟨pre, p, post⟩ := t
    obtain ⟨hl, -, -⟩ := splitFirst_eq hsf
    dsimp only
    cases q with
    | none => exact h
    | some q =>
      intro x hx
      rcases List.mem_append.mp hx with hx | hx
      · exact h x (by rw [hl]; exact List.mem_append_left _ hx)
      · rcases List.mem_cons.mp hx with rfl | hx
        · exact h p (by rw [hl]; exact List.mem_append_right _ (List.mem_cons_self _ _))
        · exact h x (by rw [hl]; exact List.mem_append_right _ (List.mem_cons_of_mem _ hx))

theorem productsDeleteCore_pricePos (st : ProductsState) (pid : Option ℤ)
    (h : ProductsPricePos st) :
    ProductsPricePos (productsDeleteCore st pid).state := by
  unfold productsDeleteCore
  cases hsf : splitFirst (fun p => pid == some p.id) st.products with
  | none => exact h
  | some t =>
    obtain ⟨pre, p, post⟩ := t
    obtain ⟨hl, -, -⟩ := splitFirst_eq hsf
    intro x hx
    rcases List.mem_append.mp hx with hx | hx
    · exact h x (by rw [hl]; exact List.mem_append_left _ hx)
    · exact h x (by rw [hl]; exact List.mem_append_right _ (List.mem_cons_of_mem _ hx))

theorem productsApply_pricePos (st : ProductsState) (op : ProductOp)
    (h : ProductsPricePos st) :
    ProductsPricePos (productsApply st op).state := by
  cases op with
  | create b now => exact productsCreate_pricePos st b now h
  | update idStr b now => exact productsUpdateCore_pricePos st _ b now h
  | delete idStr => exact productsDeleteCore_pricePos st _ h
  | patchStock idStr q now => exact productsPatchStockCore_pricePos st _ q now h

theorem productsTrace_pricePos (ops : List ProductOp) (st : ProductsState)
    (log : List ℤ) (h : ProductsPricePos st) :
    ProductsPricePos (productsTrace st log ops).1 := by
  induction ops generalizing st log with
  | nil => exact h
  | cons op ops ih =>
    rw [productsTrace]
    exact ih _ _ (productsApply_pricePos st op h)

theorem productsSeedState_pricePos : ProductsPricePos productsSeedState := by
  intro x hx
  fin_cases hx <;> norm_num

/-- C2: every product record in the store satisfies `price > 0` at all
times — it holds in every store reachable from the seed data; a
`POST /products` whose body carries `price <= 0` responds 400 and leaves the
store unchanged; and a `PUT /products/:id` on an existing product whose body
carries `price <= 0` responds 400 and leaves the store unchanged, so no
request ever clamps or coerces a non-positive price into the store. -/
theorem c2_price_positive_invariant
    (ops : List ProductOp) (st : ProductsState) (cb ub : ProductBody)
    (now : String) (q r : ℚ) (pid : Option ℤ)
    (pre post : List Product) (p : Product)
    (hcq : cb.price = some q) (hq : q ≤ 0)
    (hur : ub.price = some r) (hr : r ≤ 0)
    (hfound : splitFirst (fun x => pid == some x.id) st.products
      = some (pre, p, post)) :
    (∀ x ∈ (productsRun productsSeedState ops).products, 0 < x.price) ∧
    ((productsCreate st cb now).status = 400 ∧
      (productsCreate st cb now).state = st) ∧
    ((productsUpdateCore st pid ub now).status = 400 ∧
      (productsUpdateCore st pid ub now).state = st) := by
  refine ⟨?_, ?_, ?_⟩
  · exact productsTrace_pricePos ops productsSeedState []
      productsSeedState_pricePos
  · unfold productsCreate
    split
    next nm pr cat heqn heqp heqc =>
      by_cases hq0 : q = 0
      · simp [ntruthy, hcq, hq0] at heqp
      · simp [ntruthy, hcq, hq0] at heqp
        subst heqp
        rw [if_pos hq]
        exact ⟨rfl, rfl⟩
    next => exact ⟨rfl, rfl⟩
  · unfold productsUpdateCore
    rw [hfound]
    dsimp only
    have hbad : (match ub.price with
        | some q => decide (q ≤ 0)
        | none => false) = true := by
      rw [hur]; simpa using hr
    rw [if_pos hbad]
    exact ⟨rfl, rfl⟩

/-- C2 witness: the empty request sequence on the seed store, a create and
an update each carrying price -1 against a concrete one-product store. -/
theorem c2_witness :
    (∀ x ∈ (productsRun productsSeedState []).products, 0 < x.price) ∧
    ((productsCreate wProducts
        ⟨some "B", none, some (-1), some "C", none⟩ "t").status = 400 ∧
      (productsCreate wProducts
        ⟨some "B", none, some (-1), some "C", none⟩ "t").state = wProducts) ∧
    ((productsUpdateCore wProducts (some 1)
        ⟨none, none, some (-1), none, none⟩ "t").status = 400 ∧
      (productsUpdateCore wProducts (some 1)
        ⟨none, none, some (-1), none, none⟩ "t").state = wProducts) :=
  c2_price_positive_invariant [] wProducts
    ⟨some "B", none, some (-1), some "C", none⟩
    ⟨none, none, some (-1), none, none⟩ "t" (-1) (-1) (some 1)
    [] [] { id := 1, name := "A", description := "", price := 5,
            category := "C", stock := 3, createdAt := "t0" }
    rfl (by norm_num) rfl (by norm_num) (by decide)

/-! ## Update frame property (C3) -/

/-- C3: for every existing user (the first record matching the id) and
every `PUT /users/:id` body, a successful update overwrites only fields the
body supplies — every field the body does not supply keeps its prior value,
`id` and `createdAt` are never touched, and `updatedAt` is set on every
successful update; in particular a body supplying only `role := x`
(nonempty) succeeds and a subsequent `GET /users/:id` returns the record
with role `x` and `name`/`email` unchanged. -/
theorem c3_update_frame
    (st : UsersState) (uid : Option ℤ) (b : UserBody) (now m x : String)
    (pre post : List User) (u u' : User)
    (hfound : splitFirst (fun v => uid == some v.id) st.users
      = some (pre, u, post))
    (hupd : (usersUpdateCore st uid b now).body = .updatedMsg m u')
    (hx : x ≠ "") :
    ((b.name = none → u'.name = u.name) ∧
     (b.email = none → u'.email = u.email) ∧
     (b.role = none → u'.role = u.role) ∧
     u'.id = u.id ∧ u'.createdAt = u.createdAt ∧ u'.updatedAt = some now ∧
     (usersUpdateCore st uid b now).status = 200 ∧
     (usersUpdateCore st uid b now).state.users = pre ++ u' :: post) ∧
    ((usersUpdateCore st uid ⟨none, none, some x⟩ now).status = 200 ∧
     (usersGetByIdCore (usersUpdateCore st uid ⟨none, none, some x⟩ now).state
        uid).body
       = .userObj { u with role := x, updatedAt := some now }) := by
  obtain ⟨-, hpu, hpre⟩ := splitFirst_eq hfound
  constructor
  · unfold usersUpdateCore at hupd ⊢
    rw [hfound] at hupd ⊢
    dsimp only at hupd ⊢
    split at hupd
    · simp at hupd
    next hc =>
      cases hupd
      rw [if_neg hc]
      refine ⟨?_, ?_, ?_, rfl, rfl, rfl, rfl, rfl⟩
      · intro hb; simp [hb, otruthy]
      · intro hb; simp [hb, otruthy]
      · intro hb; simp [hb, otruthy]
  · have hro : otruthy (some x) = some x := by simp [otruthy, hx]
    unfold usersUpdateCore
    rw [hfound]
    dsimp only
    rw [if_neg (by simp [otruthy])]
    refine ⟨rfl, ?_⟩
    unfold usersGetByIdCore
    dsimp only
    rw [splitFirst_append_cons _ _ hpre (by simpa using hpu)]
    dsimp only
    rw [hro]
    rfl

/-- C3 witness: updating seed user 2 with a name-only body, and the
role-only scenario with role `admin`. -/
theorem c3_witness :
    ((({ name := some "Janet", email := none, role := none } : UserBody).name
          = none →
        ({ id := 2, name := "Janet", email := "jane.smith@example.com",
           role := "user", createdAt := "2024-01-15T00:00:00.000Z",
           updatedAt := some "t" } : User).name = "Jane Smith") ∧
     (({ name := some "Janet", email := none, role := none } : UserBody).email
          = none →
        "jane.smith@example.com" = "jane.smith@example.com") ∧
     (({ name := some "Janet", email := none, role := none } : UserBody).role
          = none →
        "user" = "user") ∧
     (2 : ℤ) = (2 : ℤ) ∧
     "2024-01-15T00:00:00.000Z" = "2024-01-15T00:00:00.000Z" ∧
     some "t" = some "t" ∧
     (usersUpdateCore usersSeedState (some 2)
        { name := some "Janet", email := none, role := none } "t").status
       = 200 ∧
     (usersUpdateCore usersSeedState (some 2)
        { name := some "Janet", email := none, role := none } "t").state.users
       = [{ id := 1, name := "John Doe", email := "john.doe@example.com",
            role := "admin", createdAt := "2024-01-01T00:00:00.000Z" }]
         ++ { id := 2, name := "Janet", email := "jane.smith@example.com",
              role := "user", createdAt := "2024-01-15T00:00:00.000Z",
              updatedAt := some "t" }
           :: [{ id := 3, name := "Bob Johnson",
                 email := "bob.johnson@example.com", role := "user",
                 createdAt := "2024-02-01T00:00:00.000Z" }]) ∧
    ((usersUpdateCore usersSeedState (some 2)
        ⟨none, none, some "admin"⟩ "t").status = 200 ∧
     (usersGetByIdCore
        (usersUpdateCore usersSeedState (some 2)
          ⟨none, none, some "admin"⟩ "t").state (some 2)).body
       = .userObj { id := 2, name := "Jane Smith",
                    email := "jane.smith@example.com", role := "admin",
                    createdAt := "2024-01-15T00:00:00.000Z",
                    updatedAt := some "t" }) :=
  c3_update_frame usersSeedState (some 2)
    { name := some "Janet", email := none, role := none } "t"
    "User updated successfully" "admin"
    [{ id := 1, name := "John Doe", email := "john.doe@example.com",
       role := "admin", createdAt := "2024-01-01T00:00:00.000Z" }]
    [{ id := 3, name := "Bob Johnson", email := "bob.johnson@example.com",
       role := "user", createdAt := "2024-02-01T00:00:00.000Z" }]
    { id := 2, name := "Jane Smith", email := "jane.smith@example.com",
      role := "user", createdAt := "2024-01-15T00:00:00.000Z" }
    { id := 2, name := "Janet", email := "jane.smith@example.com",
      role := "user", createdAt := "2024-01-15T00:00:00.000Z",
      updatedAt := some "t" }
    (by decide) (by decide) (by decide)

/-! ## Gateway error translation (C4) -/

/-- C4: for each of the six gateway routes carrying an `:id` parameter, a
backend 404 response is translated to a 404 with exactly the generic body
(`{error: "User not found"}` or `{error: "Product not found"}`, backend
detail discarded), and every other backend failure — a non-404 error status
or a connection-level failure (refused, timeout) — is translated to a 500
whose `error` field is `"Failed to <verb> <resource>"` together with the
failure's message. -/
theorem c4_gateway_id_route_errors
    (β : Type) (b : β) (s : ℕ) (m : String) (hs : s ≠ 404) :
    ∀ r ∈ gwIdRoutes β,
      r.1 (.httpError 404 b) = ⟨404, .errMsg r.2.1 none⟩ ∧
      r.1 (.httpError s b) = ⟨500, .errMsg r.2.2 (some (statusErrMsg s))⟩ ∧
      r.1 (.netError m) = ⟨500, .errMsg r.2.2 (some m)⟩ := by
  have key : ∀ nf lbl : String,
      (gwWithNotFound nf lbl : BackendResult β → GwResponse β)
          (.httpError 404 b) = ⟨404, .errMsg nf none⟩ ∧
      (gwWithNotFound nf lbl : BackendResult β → GwResponse β)
          (.httpError s b) = ⟨500, .errMsg lbl (some (statusErrMsg s))⟩ ∧
      (gwWithNotFound nf lbl : BackendResult β → GwResponse β)
          (.netError m) = ⟨500, .errMsg lbl (some m)⟩ := by
    intro nf lbl
    refine ⟨rfl, ?_, rfl⟩
    simp only [gwWithNotFound]
    rw [if_neg hs]
  intro r hr
  unfold gwIdRoutes at hr
  simp only [List.mem_cons, List.not_mem_nil, or_false] at hr
  rcases hr with rfl | rfl | rfl | rfl | rfl | rfl <;>
    simpa [gwGetUserById, gwUpdateUser, gwDeleteUser, gwGetProductById,
      gwUpdateProduct, gwDeleteProduct] using key _ _

/-- C4 witness: the `GET /api/users/:id` route at backend status 404,
backend status 400, and a connection failure. -/
theorem c4_witness :
    gwGetUserById (BackendResult.httpError 404 (0 : ℕ))
        = ⟨404, .errMsg "User not found" none⟩ ∧
    gwGetUserById (BackendResult.httpError 400 (0 : ℕ))
        = ⟨500, .errMsg "Failed to fetch user" (some (statusErrMsg 400))⟩ ∧
    gwGetUserById (BackendResult.netError "connect ECONNREFUSED" : BackendResult ℕ)
        = ⟨500, .errMsg "Failed to fetch user"
            (some "connect ECONNREFUSED")⟩ :=
  c4_gateway_id_route_errors ℕ 0 400 "connect ECONNREFUSED" (by decide)
    (gwGetUserById, "User not found", "Failed to fetch user")
    (List.mem_cons_self _ _)

/-! ## Gateway forwarding (C5) and duplicate-email conflict (C6) -/

/-- C5 counterexample: the gateway does not forward the query string.  The
outbound request `GET /api/users` builds for an incoming `?role=admin`
request differs from the forwarded request the spec describes, and composed
with the users service on the seed store the gateway returns all three
users where a query-forwarding gateway would return the one admin. -/
theorem c5_counterexample :
    gwUsersListOutbound [("role", "admin")]
        ≠ specUsersListOutbound [("role", "admin")] ∧
    gwGetUsersComposed usersSeedState (some "admin") none
        ≠ specGetUsersComposed usersSeedState (some "admin") none ∧
    gwGetUsersComposed usersSeedState (some "admin") none
        = ⟨200, .relay (.userList 3 usersSeedState.users)⟩ := by
  refine ⟨by decide, by decide, by decide⟩

/-- C5 as amended: every one of the ten defined gateway routes issues an
outbound request forwarding the route's method, path suffix (the `:id`
parameter included) and, on the POST/PUT routes, the JSON body unchanged —
but drops the query string: each outbound request equals the request the
spec describes except that its query is empty whatever the client sent.
On a successful backend response every route relays the backend's body
verbatim, with status 200 on the `GET`/`PUT`/`DELETE` routes and 201 on the
`POST` routes (matching the status the backends produce for those
requests); composed with the backends, `GET /api/users` and
`GET /api/products` therefore answer as if no query filters were given. -/
theorem c5_amended (β : Type) (b : β) (st : UsersState)
    (pst : ProductsState) (id : String) (ub : UserBody) (pb : ProductBody)
    (role limit category minPrice maxPrice plimit : Option String)
    (q : List (String × String)) :
    (gwUsersListReq q
        = { specForwardReq "GET" "/users" q none with query := [] } ∧
     gwUserByIdReq id q
        = { specForwardReq "GET" ("/users/" ++ id) q none with query := [] } ∧
     gwCreateUserReq q ub
        = { specForwardReq "POST" "/users" q (some ub) with query := [] } ∧
     gwUpdateUserReq id q ub
        = { specForwardReq "PUT" ("/users/" ++ id) q (some ub) with
            query := [] } ∧
     gwDeleteUserReq id q
        = { specForwardReq "DELETE" ("/users/" ++ id) q none with
            query := [] } ∧
     gwProductsListReq q
        = { specForwardReq "GET" "/products" q none with query := [] } ∧
     gwProductByIdReq id q
        = { specForwardReq "GET" ("/products/" ++ id) q none with
            query := [] } ∧
     gwCreateProductReq q pb
        = { specForwardReq "POST" "/products" q (some pb) with
            query := [] } ∧
     gwUpdateProductReq id q pb
        = { specForwardReq "PUT" ("/products/" ++ id) q (some pb) with
            query := [] } ∧
     gwDeleteProductReq id q
        = { specForwardReq "DELETE" ("/products/" ++ id) q none with
            query := [] }) ∧
    (gwGetUsers (.ok b) = ⟨200, .relay b⟩ ∧
     gwCreateUser (.ok b) = ⟨201, .relay b⟩ ∧
     gwGetUserById (.ok b) = ⟨200, .relay b⟩ ∧
     gwUpdateUser (.ok b) = ⟨200, .relay b⟩ ∧
     gwDeleteUser (.ok b) = ⟨200, .relay b⟩ ∧
     gwGetProducts (.ok b) = ⟨200, .relay b⟩ ∧
     gwCreateProduct (.ok b) = ⟨201, .relay b⟩ ∧
     gwGetProductById (.ok b) = ⟨200, .relay b⟩ ∧
     gwUpdateProduct (.ok b) = ⟨200, .relay b⟩ ∧
     gwDeleteProduct (.ok b) = ⟨200, .relay b⟩) ∧
    gwGetUsersComposed st role limit
        = ⟨200, .relay (usersGetAll st none none).body⟩ ∧
    gwGetProductsComposed pst category minPrice maxPrice plimit
        = ⟨200, .relay (productsGetAll pst none none none none).body⟩ := by
  exact ⟨⟨rfl, rfl, rfl, rfl, rfl, rfl, rfl, rfl, rfl, rfl⟩,
    ⟨rfl, rfl, rfl, rfl, rfl, rfl, rfl, rfl, rfl, rfl⟩, rfl, rfl⟩

/-- C6 counterexample: a `POST /users` whose email equals the email of
seed user 1 but whose body lacks `name` responds 400, not 409 (the
required-field check runs before the duplicate-email check). -/
theorem c6_counterexample :
    usersSeedState.users.any
        (fun u => u.email = "john.doe@example.com") = true ∧
    (usersCreate usersSeedState
        { email := some "john.doe@example.com" } "t").status = 400 ∧
    (usersCreate usersSeedState
        { email := some "john.doe@example.com" } "t").status ≠ 409 := by
  refine ⟨by decide, by decide, by decide⟩

/-- C6 as amended: a `POST /users` whose `name` and `email` are both
present and nonempty and whose email equals the email of an existing user
responds 409 and leaves the store completely unchanged (records, order,
count and next-ID counter); a `POST /users` with a missing or empty
required field responds 400 and also leaves the store unchanged, even when
its email duplicates an existing one. -/
theorem c6_duplicate_email_conflict
    (st : UsersState) (b b2 : UserBody) (now nm em : String)
    (hn : otruthy b.name = some nm) (he : otruthy b.email = some em)
    (hdup : st.users.any (fun u => u.email = em) = true)
    (hbad : otruthy b2.name = none ∨ otruthy b2.email = none) :
    ((usersCreate st b now).status = 409 ∧ (usersCreate st b now).state = st) ∧
    ((usersCreate st b2 now).status = 400 ∧
      (usersCreate st b2 now).state = st) := by
  constructor
  · unfold usersCreate
    rw [hn, he]
    dsimp only
    rw [if_pos hdup]
    exact ⟨rfl, rfl⟩
  · unfold usersCreate
    rcases hbad with hb | hb
    · rw [hb]; exact ⟨rfl, rfl⟩
    · rw [hb]
      cases hb2 : otruthy b2.name <;> exact ⟨rfl, rfl⟩

/-- C6 witness: a duplicate-email create with a name, and a duplicate-email
create without a name, both against the seed store. -/
theorem c6_witness :
    ((usersCreate usersSeedState
        { name := some "Zed", email := some "john.doe@example.com" }
        "t").status = 409 ∧
      (usersCreate usersSeedState
        { name := some "Zed", email := some "john.doe@example.com" }
        "t").state = usersSeedState) ∧
    ((usersCreate usersSeedState
        { email := some "john.doe@example.com" } "t").status = 400 ∧
      (usersCreate usersSeedState
        { email := some "john.doe@example.com" } "t").state
        = usersSeedState) :=
  c6_duplicate_email_conflict usersSeedState
    { name := some "Zed", email := some "john.doe@example.com" }
    { email := some "john.doe@example.com" }
    "t" "Zed" "john.doe@example.com"
    (by decide) (by decide) (by decide) (Or.inl (by decide))

/-! ## Stock patching (C7) -/

/-- The record produced by a successful stock patch. -/
def stockPatched (p : Product) (v : ℚ) (now : String) : Product :=
  { p with stock := v, updatedAt := some now }

/-- C7: for an existing product (the first record matching the id),
`PATCH /products/:id/stock` succeeds whenever `quantity` is present —
setting `stock` to exactly the supplied integer, zero included — and
responds 400 leaving the store unchanged exactly when `quantity` is absent
from the body. -/
theorem c7_patch_stock
    (st : ProductsState) (pid : Option ℤ) (pre post : List Product)
    (p : Product) (now : String) (n : ℤ) (q : Option ℚ)
    (hfound : splitFirst (fun x => pid == some x.id) st.products
      = some (pre, p, post)) :
    ((productsPatchStockCore st pid (some (n : ℚ)) now).status = 200 ∧
     (productsPatchStockCore st pid (some (n : ℚ)) now).state.products
        = pre ++ stockPatched p (n : ℚ) now :: post) ∧
    ((productsPatchStockCore st pid q now).status = 400 ↔ q = none) ∧
    (productsPatchStockCore st pid none now).state = st := by
  have hstep : ∀ r : ℚ,
      (productsPatchStockCore st pid (some r) now).status = 200 ∧
      (productsPatchStockCore st pid (some r) now).state.products
        = pre ++ stockPatched p (jsTruncNum r : ℚ) now :: post := by
    intro r
    unfold productsPatchStockCore
    rw [hfound]
    exact ⟨rfl, rfl⟩
  have hnone : productsPatchStockCore st pid none now
      = ⟨400, .errBody "Quantity is required" none, st⟩ := by
    unfold productsPatchStockCore
    rw [hfound]
  refine ⟨?_, ?_, by rw [hnone]⟩
  · have := hstep (n : ℚ)
    rwa [jsTruncNum_intCast] at this
  · cases q with
    | none => simp [hnone]
    | some r => simp [(hstep r).1]

/-- C7 witness: patching the single product of a concrete store with
quantity 0, and with `quantity` absent. -/
theorem c7_witness :
    ((productsPatchStockCore wProducts (some 1) (some ((0 : ℤ) : ℚ))
        "t").status = 200 ∧
     (productsPatchStockCore wProducts (some 1) (some ((0 : ℤ) : ℚ))
        "t").state.products
       = [] ++ stockPatched
           { id := 1, name := "A", description := "", price := 5,
             category := "C", stock := 3, createdAt := "t0" }
           ((0 : ℤ) : ℚ) "t" :: ([] : List Product)) ∧
    ((productsPatchStockCore wProducts (some 1) none "t").status = 400
        ↔ (none : Option ℚ) = none) ∧
    (productsPatchStockCore wProducts (some 1) none "t").state = wProducts :=
  c7_patch_stock wProducts (some 1) [] []
    { id := 1, name := "A", description := "", price := 5,
      category := "C", stock := 3, createdAt := "t0" }
    "t" 0 none (by decide)

/-! ## User listing, role filter and limit (C8) -/

/-- The list of users a `GET /users` response carries. -/
def listedUsers (r : UsersResult) : List User :=
  match r.body with
  | .userList _ l => l
  | _ => []

/-- The `count` field a `GET /users` response carries. -/
def listedCount (r : UsersResult) : ℕ :=
  match r.body with
  | .userList c _ => c
  | _ => 0

/-- C8 counterexample: on the seed store, `GET /users?limit=abc` (a
non-numeric limit) returns the empty list — `slice(0, parseInt("abc"))` is
`slice(0, NaN)` = `slice(0, 0)` — not the full three-user list the claim
requires. -/
theorem c8_counterexample :
    (usersGetAll usersSeedState none (some "abc")).body = .userList 0 [] ∧
    usersSeedState.users.length = 3 ∧
    (usersGetAll usersSeedState none (some "abc")).body
      ≠ (usersGetAll usersSeedState none none).body := by
  refine ⟨by decide, by decide, by decide⟩

/-- C8 as amended: `GET /users?role=&limit=` returns all users, filtered to
exact role matches when `role` is a nonempty string; when `limit` is absent
or empty no truncation happens; when `limit` is present, `parseInt(limit)`
is taken as the slice end, so a nonnegative numeric limit keeps the first
`limit` records while a non-numeric limit (NaN, treated as 0 by `slice`)
yields the empty list; and `count` always equals the length of the returned
array. -/
theorem c8_list_users
    (st : UsersState) (role limit : Option String) (rl ls : String) (n : ℤ) :
    (listedCount (usersGetAll st role limit)
        = (listedUsers (usersGetAll st role limit)).length) ∧
    (otruthy role = none → listedUsers (usersGetAll st role none) = st.users) ∧
    (otruthy role = some rl →
      listedUsers (usersGetAll st role none)
        = st.users.filter (fun u => u.role = rl)) ∧
    (otruthy limit = none →
      listedUsers (usersGetAll st role limit)
        = listedUsers (usersGetAll st role none)) ∧
    (otruthy limit = some ls → jsParseInt ls = none →
      listedUsers (usersGetAll st role limit) = []) ∧
    (otruthy limit = some ls → jsParseInt ls = some n → 0 ≤ n →
      listedUsers (usersGetAll st role limit)
        = (listedUsers (usersGetAll st role none)).take n.toNat) := by
  refine ⟨?_, ?_, ?_, ?_, ?_, ?_⟩
  · unfold usersGetAll listedCount listedUsers
    rfl
  · intro h; unfold usersGetAll listedUsers; rw [h]; simp [otruthy]
  · intro h; unfold usersGetAll listedUsers; rw [h]; simp [otruthy]
  · intro h; unfold usersGetAll listedUsers; rw [h]; simp [otruthy]
  · intro h hp
    unfold usersGetAll listedUsers
    rw [h]
    dsimp only
    rw [hp]
    rfl
  · intro h hp hn
    unfold usersGetAll listedUsers
    rw [h]
    dsimp only
    rw [hp]
    simp [otruthy, jsSliceTo, hn]

/-- C8 witness: the seed store with `role=user` and `limit=1`. -/
theorem c8_witness :
    (listedCount (usersGetAll usersSeedState (some "user") (some "1"))
        = (listedUsers (usersGetAll usersSeedState (some "user")
            (some "1"))).length) ∧
    (otruthy (some "user") = none →
      listedUsers (usersGetAll usersSeedState (some "user") none)
        = usersSeedState.users) ∧
    (otruthy (some "user") = some "user" →
      listedUsers (usersGetAll usersSeedState (some "user") none)
        = usersSeedState.users.filter (fun u => u.role = "user")) ∧
    (otruthy (some "1") = none →
      listedUsers (usersGetAll usersSeedState (some "user") (some "1"))
        = listedUsers (usersGetAll usersSeedState (some "user") none)) ∧
    (otruthy (some "1") = some "1" → jsParseInt "1" = none →
      listedUsers (usersGetAll usersSeedState (some "user") (some "1"))
        = []) ∧
    (otruthy (some "1") = some "1" → jsParseInt "1" = some 1 → (0 : ℤ) ≤ 1 →
      listedUsers (usersGetAll usersSeedState (some "user") (some "1"))
        = (listedUsers (usersGetAll usersSeedState (some "user")
            none)).take (1 : ℤ).toNat) :=
  c8_list_users usersSeedState (some "user") (some "1") "user" "1" 1

/-! ## Stock values (C9) -/

/-- C9 counterexample: `PATCH /products/2/stock {quantity: -9}` succeeds on
the seed store and leaves stock -9, and `POST /products` with stock 5/2
succeeds storing a non-integer stock — no handler validates stock. -/
theorem c9_counterexample :
    (productsPatchStock productsSeedState "2" (some (-9)) "t").status = 200 ∧
    ((productsPatchStock productsSeedState "2" (some (-9))
        "t").state.products.map Product.stock) = [45, -9, 80, 60, 25] ∧
    (productsCreate productsSeedState
      { name := some "W", price := some 1, category := some "C",
        stock := some fiveHalves } "t").status = 201 ∧
    ((productsCreate productsSeedState
      { name := some "W", price := some 1, category := some "C",
        stock := some fiveHalves } "t").state.products.map Product.stock)
      = [45, 150, 80, 60, 25, fiveHalves] ∧
    fiveHalves.den = 2 := by
  refine ⟨by decide, by decide, by decide, by decide, rfl⟩

/-- Every record in the products store has integer stock. -/
def ProductsStockInt (st : ProductsState) : Prop :=
  ∀ x ∈ st.products, x.stock.den = 1

/-- A request whose body cannot smuggle a non-integer stock into the store:
any non-create request (update and patch coerce the supplied value through
`parseInt`), or a create whose supplied stock is an integer. -/
def opStockIntOK : ProductOp → Prop
  | .create b _ => ∀ q : ℚ, b.stock = some q → q.den = 1
  | _ => True

theorem productsCreate_stockInt (st : ProductsState) (b : ProductBody)
    (now : String) (h : ProductsStockInt st)
    (hb : ∀ q : ℚ, b.stock = some q → q.den = 1) :
    ProductsStockInt (productsCreate st b now).state := by
  unfold productsCreate
  split
  next nm pr cat heqn heqp heqc =>
    split
    · exact h
    · intro x hx
      rcases List.mem_append.mp hx with hx | hx
      · exact h x hx
      · rw [List.mem_singleton.mp hx]
        dsimp only
        cases hbs : b.stock with
        | none => simp [hbs, ntruthy, Option.getD]
        | some q =>
          by_cases hq0 : q = 0
          · simp [hbs, ntruthy, hq0]
          · simp only [hbs, ntruthy, if_neg hq0, Option.getD]
            exact hb q hbs
  next => exact h

theorem productsUpdateCore_stockInt (st : ProductsState) (pid : Option ℤ)
    (b : ProductBody) (now : String) (h : ProductsStockInt st) :
    ProductsStockInt (productsUpdateCore st pid b now).state := by
  unfold productsUpdateCore
  cases hsf : splitFirst (fun p => pid == some p.id) st.products with
  | none => exact h
  | some t =>
    obtain ⟨pre, p, post⟩ := t
    obtain ⟨hl, -, -⟩ := splitFirst_eq hsf
    dsimp only
    split
    · exact h
    · intro x hx
      rcases List.mem_append.mp hx with hx | hx
      · exact h x (by rw [hl]; exact List.mem_append_left _ hx)
      · rcases List.mem_cons.mp hx with rfl | hx
        · dsimp only
          cases hbs : b.stock with
          | none =>
            simp only [hbs]
            exact h p (by rw [hl]; exact List.mem_append_right _ (List.mem_cons_self _ _))
          | some q => simp [hbs]
        · exact h x (by rw [hl]; exact List.mem_append_right _ (List.mem_cons_of_mem _ hx))

theorem productsPatchStockCore_stockInt (st : ProductsState) (pid : Option ℤ)
    (q : Option ℚ) (now : String) (h : ProductsStockInt st) :
    ProductsStockInt (productsPatchStockCore st pid q now).state := by
  unfold productsPatchStockCore
  cases hsf : splitFirst (fun p => pid == some p.id) st.products with
  | none => exact h
  | some t =>
    obtain ⟨pre, p, post⟩ := t
    obtain ⟨hl, -, -⟩ := splitFirst_eq hsf
    dsimp only
    cases q with
    | none => exact h
    | some q =>
      intro x hx
      rcases List.mem_append.mp hx with hx | hx
      · exact h x (by rw [hl]; exact List.mem_append_left _ hx)
      · rcases List.mem_cons.mp hx with rfl | hx
        · simp
        · exact h x (by rw [hl]; exact List.mem_append_right _ (List.mem_cons_of_mem _ hx))

theorem productsDeleteCore_stockInt (st : ProductsState) (pid : Option ℤ)
    (h : ProductsStockInt st) :
    ProductsStockInt (productsDeleteCore st pid).state := by
  unfold productsDeleteCore
  cases hsf : splitFirst (fun p => pid == some p.id) st.products with
  | none => exact h
  | some t =>
    obtain ⟨pre, p, post⟩ := t
    obtain ⟨hl, -, -⟩ := splitFirst_eq hsf
    intro x hx
    rcases List.mem_append.mp hx with hx | hx
    · exact h x (by rw [hl]; exact List.mem_append_left _ hx)
    · exact h x (by rw [hl]; exact List.mem_append_right _ (List.mem_cons_of_mem _ hx))

theorem productsTrace_stockInt (ops : List ProductOp) (st : ProductsState)
    (log : List ℤ) (h : ProductsStockInt st)
    (hops : ∀ op ∈ ops, opStockIntOK op) :
    ProductsStockInt (productsTrace st log ops).1 := by
  induction ops generalizing st log with
  | nil => exact h
  | cons op ops ih =>
    rw [productsTrace]
    have hstep : ProductsStockInt (productsApply st op).state := by
      cases op with
      | create b now =>
        exact productsCreate_stockInt st b now h
          (hops (.create b now) (List.mem_cons_self _ _))
      | update idStr b now => exact productsUpdateCore_stockInt st _ b now h
      | delete idStr => exact productsDeleteCore_stockInt st _ h
      | patchStock idStr q now =>
        exact productsPatchStockCore_stockInt st _ q now h
    exact ih _ _ hstep (fun o ho => hops o (List.mem_cons_of_mem _ ho))

/-- C9 as amended: stock carries no validation — it can go negative, as the
counterexample shows — but it is always an integer as long as every
`POST /products` body supplies an integer (or no) stock value, because
`PUT /products/:id` and `PATCH /products/:id/stock` pass the supplied value
through `parseInt` while `POST /products` stores it raw (defaulting to 0
when falsy). -/
theorem c9_stock_integer (ops : List ProductOp)
    (hops : ∀ op ∈ ops, opStockIntOK op) :
    ProductsStockInt (productsRun productsSeedState ops) :=
  productsTrace_stockInt ops productsSeedState []
    (by intro x hx; fin_cases hx <;> rfl) hops

/-- C9 witness: a concrete run of one negative-quantity stock patch. -/
theorem c9_witness :
    ProductsStockInt
      (productsRun productsSeedState [.patchStock "2" (some (-9)) "t"]) :=
  c9_stock_integer [.patchStock "2" (some (-9)) "t"]
    (by intro op hop
        rw [List.mem_singleton.mp hop]
        trivial)

/-! ## Path-id parsing (C10) -/

/-- C10 counterexample: `parseInt` is not leading-integer parsing — a path
id of "0x10" is parsed as hexadecimal 16, so on a store holding a user with
id 16 `GET /users/0x10` returns 200 while `GET /users/0` (the result of
leading-integer parsing "0x10", which yields 0) returns 404. -/
theorem c10_counterexample :
    (usersGetById hexStore "0x10").status = 200 ∧
    (usersGetById hexStore "0").status = 404 ∧
    leadingIntParse "0x10" = some 0 ∧
    jsParseInt "0x10" = some 16 := by
  refine ⟨by decide, by decide, by decide, by decide⟩

/-- C10 as amended: `GET /users/:id` and `GET /products/:id` behave as if
the id were `parseInt(s)` — leading-whitespace and sign skipping, then a
decimal digit run, except that a `0x`/`0X` prefix switches to hexadecimal —
so two id strings with the same `parseInt` value get identical responses
("3abc" behaves as "3"), and a string `parseInt` cannot parse at all (NaN)
always yields a 404 response with the store untouched, never an uncaught
error or a 500. -/
theorem c10_id_parsing (ust : UsersState) (pst : ProductsState)
    (s t : String) (h : jsParseInt s = jsParseInt t) :
    (usersGetById ust s = usersGetById ust t ∧
     productsGetById pst s = productsGetById pst t) ∧
    (jsParseInt s = none →
      (usersGetById ust s).status = 404 ∧
      (productsGetById pst s).status = 404 ∧
      (usersGetById ust s).state = ust ∧
      (productsGetById pst s).state = pst) ∧
    jsParseInt "3abc" = jsParseInt "3" := by
  refine ⟨⟨?_, ?_⟩, ?_, by decide⟩
  · unfold usersGetById; rw [h]
  · unfold productsGetById; rw [h]
  · intro hn
    unfold usersGetById productsGetById usersGetByIdCore productsGetByIdCore
    rw [hn,
      @splitFirst_of_forall_false User (fun u => none == some u.id)
        (fun u => rfl) ust.users,
      @splitFirst_of_forall_false Product (fun p => none == some p.id)
        (fun p => rfl) pst.products]
    exact ⟨rfl, rfl, rfl, rfl⟩

/-- C10 witness: the unparsable ids "abc" and "zzz" against the seed users
store and a concrete products store. -/
theorem c10_witness :
    (usersGetById usersSeedState "abc" = usersGetById usersSeedState "zzz" ∧
     productsGetById wProducts "abc" = productsGetById wProducts "zzz") ∧
    (jsParseInt "abc" = none →
      (usersGetById usersSeedState "abc").status = 404 ∧
      (productsGetById wProducts "abc").status = 404 ∧
      (usersGetById usersSeedState "abc").state = usersSeedState ∧
      (productsGetById wProducts "abc").state = wProducts) ∧
    jsParseInt "3abc" = jsParseInt "3" :=
  c10_id_parsing usersSeedState wProducts "abc" "zzz" (by decide)

end VBoxMS
